import Mathlib

/-!
Verification of the MQTT topic health checker (`mqtt_iot_healthcheck.py`).

Timestamps are modelled as integer epoch seconds (`datetime.now()` at
whole-second resolution); durations in seconds; exact means as rationals.
Python dictionaries become function-valued maps, Python strings become Lean
strings.  The decimal rendering used by `f"{x:.1f}"` and `str(int)` and the
decimal parsing used by `float(...)` / `strptime` are implemented explicitly
at the character level so that the round trips the program relies on can be
proved.  Python rounds the binary double half-to-even; the model rounds the
exact rational half-up — the two agree except on exact decimal ties, which
none of the verified statements touch.
-/

namespace MqttHealthcheck

/-! ### Decimal digits: rendering and parsing -/

/-- Big-endian decimal digits of `n` (empty for 0).  The first argument is
structural fuel (`n` itself suffices, since `n / 10 < n`). -/
def natDigitsAux : Nat → Nat → List Nat
  | _, 0 => []
  | 0, _ + 1 => []
  | fuel + 1, n + 1 => natDigitsAux fuel ((n + 1) / 10) ++ [(n + 1) % 10]

def natDigits (n : Nat) : List Nat := natDigitsAux n n

/-- Characters of the decimal rendering of `n`, as printed by Python `str`. -/
def natChars (n : Nat) : List Char :=
  if n = 0 then ['0'] else (natDigits n).map Nat.digitChar

def natToStr (n : Nat) : String := ⟨natChars n⟩

/-- Characters of the decimal rendering of an integer. -/
def intChars (i : Int) : List Char :=
  (if i < 0 then ['-'] else []) ++ natChars i.natAbs

def intToStr (i : Int) : String := ⟨intChars i⟩

/-- Value of a big-endian digit list. -/
def digitsToNat (l : List Nat) : Nat := l.foldl (fun a d => 10 * a + d) 0

def charToDigit (c : Char) : Option Nat :=
  if '0' ≤ c ∧ c ≤ '9' then some (c.toNat - 48) else none

def parseDigitsAux : List Char → Nat → Option Nat
  | [], acc => some acc
  | c :: rest, acc =>
    match charToDigit c with
    | some d => parseDigitsAux rest (10 * acc + d)
    | none => none

/-- Parse a nonempty all-digit character list as a natural number. -/
def parseDigitList (l : List Char) : Option Nat :=
  if l = [] then none else parseDigitsAux l 0

/-- Parse an optionally `-`-signed digit string as an integer. -/
def parseIntChars (l : List Char) : Option Int :=
  if l.head? = some '-' then (parseDigitList l.tail).map (fun n => -(n : Int))
  else (parseDigitList l).map (fun n => (n : Int))

/-- Split a character list at the first `'.'`. -/
def breakAtDot : List Char → List Char × Option (List Char)
  | [] => ([], none)
  | c :: rest =>
    if c = '.' then ([], some rest)
    else
      let p := breakAtDot rest
      (c :: p.1, p.2)

/-- Parse an unsigned decimal numeral with at most one point, exactly. -/
def parseUnsignedFloatChars (l : List Char) : Option ℚ :=
  match breakAtDot l with
  | (a, none) => (parseDigitList a).map (fun n => (n : ℚ))
  | (a, some b) => do
    let na ← parseDigitList a
    let nb ← parseDigitList b
    some ((na : ℚ) + (nb : ℚ) / (10 : ℚ) ^ b.length)

/-- Model of Python `float(...)` on the decimal strings this program
produces (sign, digits, optional single point). -/
def parseFloatChars (l : List Char) : Option ℚ :=
  if l.head? = some '-' then (parseUnsignedFloatChars l.tail).map Neg.neg
  else parseUnsignedFloatChars l

def parseFloat (s : String) : Option ℚ := parseFloatChars s.data

/-- Floor of `x + 1/2`, computed on the normalized numerator and denominator
so the kernel can evaluate it. -/
def roundHalfUp (x : ℚ) : ℤ := (2 * x.num + (x.den : ℤ)) / (2 * (x.den : ℤ))

/-- Model of Python `f"{x:.1f}"`: round to one decimal (half-up on the exact
rational; Python rounds the binary double) and print sign, integer part,
point, single fraction digit. -/
def formatOneDecimal (x : ℚ) : String :=
  let n : ℤ := roundHalfUp (10 * x)
  ⟨(if n < 0 then ['-'] else []) ++ natChars (n.natAbs / 10) ++ '.' :: natChars (n.natAbs % 10)⟩

/-- Model of Python's float rendering of a whole-second epoch timestamp
(`datetime.timestamp()` printed by an f-string). -/
def renderTsFloat (t : Int) : String := intToStr t ++ ".0"

/-- Display-only model of Python's float rendering for the parsed average
(the verified statements constrain the value, not these characters). -/
def ratRepr (q : ℚ) : String :=
  if q.den = 1 then intToStr q.num ++ ".0"
  else intToStr q.num ++ "/" ++ natToStr q.den

/-! ### Program state (`MQTTHealthChecker` fields) -/

/-- The mutable per-topic state: `topic_timestamps`, `topic_counters`,
`topic_message_history`. -/
structure TrackerState where
  topic_timestamps : String → Option Int
  topic_counters : String → Option Nat
  topic_message_history : String → Option (List Int)

def initialState : TrackerState :=
  ⟨fun _ => none, fun _ => none, fun _ => none⟩

/-- The static registry loaded from `topics.json`: `topics`,
`topic_descriptions`, `topic_types`. -/
structure Registry where
  topics : List String
  topic_descriptions : String → Option String
  topic_types : String → Option String

def emptyRegistry : Registry := ⟨[], fun _ => none, fun _ => none⟩

def max_history_size : Nat := 100

/-! ### `load_topics` -/

/-- One element of the `topics` array: a bare string (legacy), an object
(each field read with `.get(key, '')`, so a missing field is `""`), or any
other JSON value (skipped by the `isinstance` chain). -/
inductive TopicItem where
  | str (s : String)
  | obj (topic description type_ : String)
  | other

/-- The configuration source: missing file, malformed JSON, or a parsed
`topics` array. -/
inductive ConfigSource where
  | fileNotFound
  | jsonDecodeError
  | parsed (topics_data : List TopicItem)

/-- Loop body of `load_topics`. -/
def loadStep (reg : Registry) : TopicItem → Registry
  | .str topic => { reg with topics := reg.topics ++ [topic] }
  | .obj topic description type_ =>
    if topic ≠ "" then
      { topics := reg.topics ++ [topic]
        topic_descriptions :=
          if description ≠ "" then
            fun t => if t = topic then some description else reg.topic_descriptions t
          else reg.topic_descriptions
        topic_types :=
          if type_ ≠ "" then
            fun t => if t = topic then some type_ else reg.topic_types t
          else reg.topic_types }
    else reg
  | .other => reg

/-- The `load_topics` loader: absent or unparsable source yields the empty registry
(the exception handlers); otherwise fold the loop body over the items. -/
def load_topics : ConfigSource → Registry
  | .fileNotFound => emptyRegistry
  | .jsonDecodeError => emptyRegistry
  | .parsed items => items.foldl loadStep emptyRegistry

/-! ### `on_message` -/

/-- Body of the `with self.lock:` block of `on_message`: set the timestamp,
bump the counter, append to the history, trim the history to the last
`max_history_size` entries. -/
def on_message (st : TrackerState) (topic : String) (current_time : Int) : TrackerState :=
  let hist0 := (st.topic_message_history topic).getD []
  let hist1 := hist0 ++ [current_time]
  let hist2 :=
    if max_history_size < hist1.length then hist1.drop (hist1.length - max_history_size)
    else hist1
  { topic_timestamps := fun t => if t = topic then some current_time else st.topic_timestamps t
    topic_counters :=
      fun t => if t = topic then some ((st.topic_counters topic).getD 0 + 1)
               else st.topic_counters t
    topic_message_history :=
      fun t => if t = topic then some hist2 else st.topic_message_history t }

/-- Deliver a sequence of arrivals on one topic, oldest first. -/
def recordAll (topic : String) (ts : List Int) : TrackerState :=
  ts.foldl (fun s t => on_message s topic t) initialState

/-! ### `_calculate_average_interval` -/

/-- The `for i in range(1, len(timestamps))` loop: consecutive deltas. -/
def consecutiveIntervals : List Int → List Int
  | [] => []
  | [_] => []
  | a :: b :: rest => (b - a) :: consecutiveIntervals (b :: rest)

/-- Body of `_calculate_average_interval` from the `timestamps` lookup on: fewer
than two entries yields `"No data"`, otherwise the mean of the consecutive
deltas is formatted by magnitude with one decimal digit. -/
def calcAvgIntervalOfHistory (timestamps : List Int) : String :=
  if timestamps.length < 2 then "No data"
  else
    let intervals := consecutiveIntervals timestamps
    if intervals = [] then "No data"
    else
      let avg_seconds : ℚ := ((intervals.map (fun i => (i : ℚ))).sum) / (intervals.length : ℚ)
      if avg_seconds < 60 then formatOneDecimal avg_seconds ++ "s"
      else if avg_seconds < 3600 then formatOneDecimal (avg_seconds / 60) ++ "m"
      else if avg_seconds < 86400 then formatOneDecimal (avg_seconds / 3600) ++ "h"
      else formatOneDecimal (avg_seconds / 86400) ++ "d"

/-- The full `_calculate_average_interval`: a topic absent from the history map has
no data. -/
def calculate_average_interval (st : TrackerState) (topic : String) : String :=
  match st.topic_message_history topic with
  | none => "No data"
  | some timestamps => calcAvgIntervalOfHistory timestamps

/-! ### `get_status_data` -/

/-- Two-digit zero-padded rendering, as in Python `timedelta` minutes and
seconds fields. -/
def pad2 (n : Nat) : String := if n < 10 then "0" ++ natToStr n else natToStr n

/-- Model of `str(timedelta).split('.')[0]` for a whole-second duration:
days normalized by floor division (Python `divmod`), then `h:mm:ss`; there
is no microsecond part to split away at second resolution. -/
def renderTimedelta (d : Int) : String :=
  let days : Int := Int.fdiv d 86400
  let rem : Nat := (Int.fmod d 86400).toNat
  let base := natToStr (rem / 3600) ++ ":" ++ pad2 (rem % 3600 / 60) ++ ":" ++ pad2 (rem % 60)
  if days = 0 then base
  else intToStr days ++ " day" ++ (if days = 1 ∨ days = -1 then "" else "s") ++ ", " ++ base

/-- One entry of the `status_data` list (the dictionary appended per topic). -/
structure StatusRow where
  topic : String
  display_name : String
  type_ : String
  last_seen : String
  time_since : String
  message_count : Nat
  avg_interval : String
  status : String

/-- Loop body of `get_status_data` for one topic: classify against the one
hour threshold (3600 s), resolve display name and type defaults, render the
timestamp and elapsed-time strings.  `time_since` renders as `'Never'`
whenever `time_diff` is falsy — absent or the zero duration. -/
def statusRowFor (reg : Registry) (st : TrackerState) (current_time : Int)
    (topic : String) : StatusRow :=
  let seen := st.topic_timestamps topic
  let fields :=
    match seen with
    | some last_seen =>
      let time_diff := current_time - last_seen
      (intToStr last_seen,
       if time_diff ≠ 0 then renderTimedelta time_diff else "Never",
       if time_diff < 3600 then "healthy" else "unhealthy")
    | none => ("Never", "Never", "never_seen")
  { topic := topic
    display_name := (reg.topic_descriptions topic).getD topic
    type_ := (reg.topic_types topic).getD "unknown"
    last_seen := fields.1
    time_since := fields.2.1
    message_count := (st.topic_counters topic).getD 0
    avg_interval := calculate_average_interval st topic
    status := fields.2.2 }

/-- The `get_status_data` read: one row per registered topic, in registry order. -/
def get_status_data (reg : Registry) (st : TrackerState) (current_time : Int) :
    List StatusRow :=
  reg.topics.map (statusRowFor reg st current_time)

/-! ### `get_metrics` -/

/-- One character of the Prometheus sanitization chain
`.replace('/','_').replace('-','_').replace('.','_').replace(':','_').replace(' ','_')`. -/
def sanitizeChar (c : Char) : Char :=
  if c = '/' ∨ c = '-' ∨ c = '.' ∨ c = ':' ∨ c = ' ' then '_' else c

/-- The sanitization chain applied to a whole string (all patterns are
single characters, so the chained replaces act character-wise). -/
def sanitizePrometheus (s : String) : String := ⟨s.data.map sanitizeChar⟩

/-- The label set rendered for one row:
`topic="...",display_name="...",type="..."` — note the raw field values. -/
def labelsOf (row : StatusRow) : String :=
  "topic=\"" ++ row.topic ++ "\",display_name=\"" ++ row.display_name ++
    "\",type=\"" ++ row.type_ ++ "\""

/-- Python `s.endswith(c)` for a single character. -/
def strEndsWithChar (s : String) (c : Char) : Bool := s.data.getLast? = some c

/-- Python `s[:-1]`. -/
def strDropLast (s : String) : String := ⟨s.data.dropLast⟩

/-- The `avg_interval_seconds` block of `get_metrics`: start from 0, and if
the humanized string is not `"No data"`, parse it back to seconds by unit
suffix.  `float(...)` on an unparsable numeral raises, modelled as `none`. -/
def parseAvgSeconds (s : String) : Option ℚ :=
  if s = "No data" then some 0
  else if strEndsWithChar s 's' then parseFloat (strDropLast s)
  else if strEndsWithChar s 'm' then (parseFloat (strDropLast s)).map (fun x => x * 60)
  else if strEndsWithChar s 'h' then (parseFloat (strDropLast s)).map (fun x => x * 3600)
  else if strEndsWithChar s 'd' then (parseFloat (strDropLast s)).map (fun x => x * 86400)
  else some 0

/-- The metric lines emitted for one status row.  `safe_topic` is computed
exactly as in the source — and, as in the source, never used afterwards.
`strptime` on a non-`'Never'` timestamp string and `float(...)` on the
average string raise on unparsable input, modelled as `none`. -/
def topicMetricLines (row : StatusRow) : Option (List String) :=
  let safe_topic := sanitizePrometheus row.topic
  let labels := labelsOf row
  let _ := safe_topic
  do
    let last_seen_ts : String ←
      if row.last_seen ≠ "Never" then (parseIntChars row.last_seen.data).map renderTsFloat
      else some "0"
    let avg_interval_seconds : ℚ ← parseAvgSeconds row.avg_interval
    let healthy_value : Nat := if row.status = "healthy" then 1 else 0
    some (["mqtt_topic_last_seen_timestamp\x7b" ++ labels ++ "\x7d " ++ last_seen_ts,
           "mqtt_topic_message_count\x7b" ++ labels ++ "\x7d " ++ natToStr row.message_count,
           "mqtt_topic_healthy\x7b" ++ labels ++ "\x7d " ++ natToStr healthy_value] ++
          (if 0 < avg_interval_seconds then
            ["mqtt_topic_avg_interval_seconds\x7b" ++ labels ++ "\x7d " ++
              ratRepr avg_interval_seconds]
          else []))

/-- The fixed `# HELP` / `# TYPE` header block. -/
def metricsHeaders : List String :=
  ["# HELP mqtt_topic_last_seen_timestamp Unix timestamp of last message received for each topic",
   "# TYPE mqtt_topic_last_seen_timestamp gauge",
   "# HELP mqtt_topic_message_count Total number of messages received for each topic",
   "# TYPE mqtt_topic_message_count counter",
   "# HELP mqtt_topic_healthy Whether the topic is considered healthy (1) or not (0)",
   "# TYPE mqtt_topic_healthy gauge",
   "# HELP mqtt_topic_avg_interval_seconds Average interval between messages in seconds",
   "# TYPE mqtt_topic_avg_interval_seconds gauge"]

/-- The `get_metrics` export: headers, then the per-topic lines over the status data,
joined by newlines with a final trailing newline. -/
def get_metrics (reg : Registry) (st : TrackerState) (current_time : Int) :
    Option String := do
  let status_data := get_status_data reg st current_time
  let perTopic ← status_data.mapM topicMetricLines
  some (String.intercalate "\n" (metricsHeaders ++ perTopic.flatten) ++ "\n")

/-! ### Spec-side definitions (for refinement statements) -/

/-- From the spec's words: which registry items contribute a channel —
bare strings always, structured entries only with a nonempty identifier. -/
def acceptedTopic : TopicItem → Option String
  | .str s => some s
  | .obj t _ _ => if t = "" then none else some t
  | .other => none

/-- From the spec's words: mean of all consecutive-pair deltas in seconds. -/
def specMeanDeltaSeconds (h : List Int) : ℚ :=
  ((consecutiveIntervals h).map (fun i => (i : ℚ))).sum / ((consecutiveIntervals h).length : ℚ)

/-- From the spec's words: magnitude formatting with one decimal digit and
half-open lower bounds. -/
def specHumanize (x : ℚ) : String :=
  if x < 60 then formatOneDecimal x ++ "s"
  else if x < 3600 then formatOneDecimal (x / 60) ++ "m"
  else if x < 86400 then formatOneDecimal (x / 3600) ++ "h"
  else formatOneDecimal (x / 86400) ++ "d"

/-- From the spec's words: `average_interval` requires at least two history
entries, else `"No data"`; otherwise humanize the mean delta. -/
def specAverageInterval (h : List Int) : String :=
  if h.length < 2 then "No data" else specHumanize (specMeanDeltaSeconds h)

/-- A small fixture state: topic `"b"` last seen at time 0, nothing else. -/
def witnessState : TrackerState :=
  ⟨fun s => if s = "b" then some 0 else none, fun _ => none, fun _ => none⟩

/-! ### Lemmas: decimal digits -/

lemma natDigitsAux_nil (fuel : Nat) : natDigitsAux fuel 0 = [] := by
  cases fuel <;> rfl

lemma digitsToNat_concat (l : List Nat) (d : Nat) :
    digitsToNat (l ++ [d]) = 10 * digitsToNat l + d := by
  simp [digitsToNat, List.foldl_append]

lemma natDigitsAux_spec : ∀ fuel n, n ≤ fuel →
    digitsToNat (natDigitsAux fuel n) = n ∧ ∀ d ∈ natDigitsAux fuel n, d < 10 := by
  intro fuel
  induction fuel with
  | zero =>
    intro n hn
    obtain rfl : n = 0 := Nat.le_zero.mp hn
    simp [natDigitsAux, digitsToNat]
  | succ f ih =>
    intro n hn
    match n with
    | 0 => simp [natDigitsAux, digitsToNat]
    | m + 1 =>
      have hlt : (m + 1) / 10 < m + 1 := Nat.div_lt_self (Nat.succ_pos m) (by norm_num)
      have hle : (m + 1) / 10 ≤ f := by omega
      obtain ⟨h1, h2⟩ := ih ((m + 1) / 10) hle
      refine ⟨?_, ?_⟩
      · show digitsToNat (natDigitsAux f ((m + 1) / 10) ++ [(m + 1) % 10]) = m + 1
        rw [digitsToNat_concat, h1, Nat.div_add_mod]
      · intro d hd
        rcases List.mem_append.1 hd with h | h
        · exact h2 d h
        · have : d = (m + 1) % 10 := by simpa using h
          subst this
          exact Nat.mod_lt _ (by norm_num)

lemma natDigits_spec (n : Nat) :
    digitsToNat (natDigits n) = n ∧ ∀ d ∈ natDigits n, d < 10 :=
  natDigitsAux_spec n n le_rfl

lemma natDigits_ne_nil {n : Nat} (h : n ≠ 0) : natDigits n ≠ [] := by
  intro hnil
  have := (natDigits_spec n).1
  rw [hnil] at this
  exact h (this.symm.trans rfl)

lemma charToDigit_digitChar (d : Nat) (h : d < 10) :
    charToDigit (Nat.digitChar d) = some d := by
  interval_cases d <;> decide

lemma digitChar_ne_dash (d : Nat) (h : d < 10) : Nat.digitChar d ≠ '-' := by
  interval_cases d <;> decide

lemma digitChar_ne_dot (d : Nat) (h : d < 10) : Nat.digitChar d ≠ '.' := by
  interval_cases d <;> decide

lemma parseDigitsAux_map : ∀ (ds : List Nat) (acc : Nat), (∀ d ∈ ds, d < 10) →
    parseDigitsAux (ds.map Nat.digitChar) acc =
      some (ds.foldl (fun a d => 10 * a + d) acc) := by
  intro ds
  induction ds with
  | nil => intro acc _; rfl
  | cons d rest ih =>
    intro acc h
    have hd : d < 10 := h d (by simp)
    show (match charToDigit (Nat.digitChar d) with
          | some e => parseDigitsAux (rest.map Nat.digitChar) (10 * acc + e)
          | none => none) = _
    rw [charToDigit_digitChar d hd]
    show parseDigitsAux (rest.map Nat.digitChar) (10 * acc + d) = _
    rw [ih (10 * acc + d) (fun x hx => h x (by simp [hx]))]
    rfl

lemma natChars_eq_digitChar (n : Nat) :
    ∀ c ∈ natChars n, ∃ d, d < 10 ∧ c = Nat.digitChar d := by
  intro c hc
  by_cases h : n = 0
  · subst h
    have hc0 : c = '0' := by simpa [natChars] using hc
    exact ⟨0, by norm_num, by rw [hc0]; rfl⟩
  · simp only [natChars, if_neg h, List.mem_map] at hc
    obtain ⟨d, hd, rfl⟩ := hc
    exact ⟨d, (natDigits_spec n).2 d hd, rfl⟩

lemma natChars_ne_nil (n : Nat) : natChars n ≠ [] := by
  by_cases h : n = 0
  · subst h; simp [natChars]
  · simp only [natChars, if_neg h]
    simpa using natDigits_ne_nil h

lemma natChars_not_dash {n : Nat} {c : Char} (hc : c ∈ natChars n) : c ≠ '-' := by
  obtain ⟨d, hd, rfl⟩ := natChars_eq_digitChar n c hc
  exact digitChar_ne_dash d hd

lemma natChars_not_dot {n : Nat} {c : Char} (hc : c ∈ natChars n) : c ≠ '.' := by
  obtain ⟨d, hd, rfl⟩ := natChars_eq_digitChar n c hc
  exact digitChar_ne_dot d hd

lemma natChars_head_ne_dash (n : Nat) : (natChars n).head? ≠ some '-' := by
  cases hc : natChars n with
  | nil => exact absurd hc (natChars_ne_nil n)
  | cons c l =>
    have : c ∈ natChars n := by rw [hc]; exact List.mem_cons_self c l
    simpa using natChars_not_dash this

lemma parseDigitList_natChars (n : Nat) : parseDigitList (natChars n) = some n := by
  by_cases h : n = 0
  · subst h; decide
  · unfold parseDigitList
    rw [if_neg (natChars_ne_nil n)]
    simp only [natChars, if_neg h]
    rw [parseDigitsAux_map _ 0 (natDigits_spec n).2]
    exact congrArg some (natDigits_spec n).1

lemma parseIntChars_intChars (i : Int) : parseIntChars (intChars i) = some i := by
  by_cases h : i < 0
  · have hchars : intChars i = '-' :: natChars i.natAbs := by
      unfold intChars; rw [if_pos h]; rfl
    rw [hchars]
    simp [parseIntChars, parseDigitList_natChars]
    rw [abs_of_neg h, neg_neg]
  · have hchars : intChars i = natChars i.natAbs := by
      unfold intChars; rw [if_neg h]; rfl
    rw [hchars]
    simp [parseIntChars, parseDigitList_natChars, natChars_head_ne_dash]
    omega

/-! ### Lemmas: float rendering and parsing round trip -/

lemma breakAtDot_no_dot (a b : List Char) (h : ∀ c ∈ a, c ≠ '.') :
    breakAtDot (a ++ '.' :: b) = (a, some b) := by
  induction a with
  | nil => simp [breakAtDot]
  | cons c rest ih =>
    have hc : c ≠ '.' := h c (by simp)
    have ih' := ih (fun x hx => h x (by simp [hx]))
    simp [breakAtDot, hc, ih']

lemma natChars_length_of_lt_10 {q : Nat} (h : q < 10) : (natChars q).length = 1 := by
  interval_cases q <;> decide

lemma parseUnsignedFloat_shape (p q : Nat) :
    parseUnsignedFloatChars (natChars p ++ '.' :: natChars q) =
      some ((p : ℚ) + (q : ℚ) / (10 : ℚ) ^ (natChars q).length) := by
  unfold parseUnsignedFloatChars
  rw [breakAtDot_no_dot _ _ (fun c hc => natChars_not_dot hc)]
  simp [parseDigitList_natChars]

lemma formatOneDecimal_data (x : ℚ) :
    (formatOneDecimal x).data =
      (if roundHalfUp (10 * x) < 0 then ['-'] else []) ++
        natChars ((roundHalfUp (10 * x)).natAbs / 10) ++
        '.' :: natChars ((roundHalfUp (10 * x)).natAbs % 10) := rfl

lemma parseFloat_formatOneDecimal (x : ℚ) :
    parseFloat (formatOneDecimal x) = some ((roundHalfUp (10 * x) : ℚ) / 10) := by
  unfold parseFloat parseFloatChars
  rw [formatOneDecimal_data]
  set n := roundHalfUp (10 * x) with hn
  have hq : n.natAbs % 10 < 10 := Nat.mod_lt _ (by norm_num)
  have hval : ((n.natAbs / 10 : ℕ) : ℚ) + ((n.natAbs % 10 : ℕ) : ℚ) / 10 =
      ((n.natAbs : ℕ) : ℚ) / 10 := by
    field_simp
    exact_mod_cast (by omega : n.natAbs / 10 * 10 + n.natAbs % 10 = n.natAbs)
  by_cases h : n < 0
  · rw [if_pos h]
    simp only [List.cons_append, List.nil_append, List.head?_cons, List.tail_cons]
    rw [if_pos trivial]
    rw [parseUnsignedFloat_shape]
    rw [natChars_length_of_lt_10 hq]
    simp only [pow_one, Option.map_some']
    congr 1
    rw [hval]
    have habs : ((n.natAbs : ℕ) : ℚ) = -(n : ℚ) := by
      have h1 : ((n.natAbs : ℕ) : ℤ) = -n := by omega
      calc ((n.natAbs : ℕ) : ℚ) = (((n.natAbs : ℕ) : ℤ) : ℚ) := (Int.cast_natCast _).symm
        _ = ((-n : ℤ) : ℚ) := by rw [h1]
        _ = -(n : ℚ) := by push_cast; ring
    rw [habs]
    ring
  · rw [if_neg h]
    simp only [List.nil_append]
    have hhead : (natChars (n.natAbs / 10) ++ '.' :: natChars (n.natAbs % 10)).head? ≠
        some '-' := by
      cases hc : natChars (n.natAbs / 10) with
      | nil => exact absurd hc (natChars_ne_nil _)
      | cons c l =>
        have hcm : c ∈ natChars (n.natAbs / 10) := by
          rw [hc]; exact List.mem_cons_self c l
        simpa using natChars_not_dash hcm
    rw [if_neg hhead]
    rw [parseUnsignedFloat_shape]
    rw [natChars_length_of_lt_10 hq]
    simp only [pow_one]
    congr 1
    rw [hval]
    have habs : ((n.natAbs : ℕ) : ℚ) = (n : ℚ) := by
      have h1 : ((n.natAbs : ℕ) : ℤ) = n := by omega
      calc ((n.natAbs : ℕ) : ℚ) = (((n.natAbs : ℕ) : ℤ) : ℚ) := (Int.cast_natCast _).symm
        _ = (n : ℚ) := by rw [h1]
    rw [habs]

lemma roundHalfUp_eq (x : ℚ) : roundHalfUp x = ⌊x + 1 / 2⌋ := by
  have hden : ((x.den : ℚ)) ≠ 0 := by exact_mod_cast x.den_nz
  have hxd : x * (x.den : ℚ) = (x.num : ℚ) :=
    ((div_eq_iff hden).mp (Rat.num_div_den x)).symm
  have hx : x + 1 / 2 = ((2 * x.num + (x.den : ℤ) : ℤ) : ℚ) / ((2 * x.den : ℕ) : ℚ) := by
    have hden0 : ((2 * x.den : ℕ) : ℚ) ≠ 0 := by
      have := x.den_nz
      positivity
    rw [eq_div_iff hden0]
    push_cast
    linear_combination 2 * hxd
  rw [hx, Rat.floor_intCast_div_natCast]
  unfold roundHalfUp
  push_cast
  rfl

/-! ### Lemmas: the humanized average string and its re-parsing -/

lemma data_append_single (s : String) (c : Char) :
    (s ++ (⟨[c]⟩ : String)).data = s.data ++ [c] := by
  rw [String.data_append]

lemma append_single_ne_nodata (s : String) {c : Char} (hc : c ≠ 'a') :
    s ++ (⟨[c]⟩ : String) ≠ "No data" := by
  intro hEq
  have hdata : s.data ++ [c] = "No data".data := by
    have := congrArg String.data hEq
    simpa [String.data_append] using this
  have h1 : (s.data ++ [c]).getLast? = some c := List.getLast?_concat _
  rw [hdata] at h1
  have : some 'a' = some c := by
    have h2 : ("No data".data).getLast? = some 'a' := by decide
    rw [h2] at h1
    exact h1
  exact hc (Option.some.inj this).symm

lemma endsWith_append_single (s : String) (c : Char) :
    strEndsWithChar (s ++ (⟨[c]⟩ : String)) c = true := by
  unfold strEndsWithChar
  rw [data_append_single]
  simp [List.getLast?_concat]

lemma endsWith_append_single_ne (s : String) {c c' : Char} (h : c ≠ c') :
    strEndsWithChar (s ++ (⟨[c]⟩ : String)) c' = false := by
  unfold strEndsWithChar
  rw [data_append_single]
  simp [List.getLast?_concat, h]

lemma strDropLast_append_single (s : String) (c : Char) :
    strDropLast (s ++ (⟨[c]⟩ : String)) = s := by
  unfold strDropLast
  rw [data_append_single]
  rw [List.dropLast_concat]

lemma parseAvgSeconds_nodata : parseAvgSeconds "No data" = some 0 := by decide

lemma parseAvgSeconds_s (x : ℚ) :
    parseAvgSeconds (formatOneDecimal x ++ "s") =
      some ((roundHalfUp (10 * x) : ℚ) / 10) := by
  have hu : ("s" : String) = (⟨['s']⟩ : String) := rfl
  unfold parseAvgSeconds
  rw [hu, if_neg (append_single_ne_nodata _ (by decide))]
  rw [if_pos (endsWith_append_single _ 's'), strDropLast_append_single]
  exact parseFloat_formatOneDecimal x

lemma parseAvgSeconds_m (x : ℚ) :
    parseAvgSeconds (formatOneDecimal x ++ "m") =
      some ((roundHalfUp (10 * x) : ℚ) / 10 * 60) := by
  have hu : ("m" : String) = (⟨['m']⟩ : String) := rfl
  unfold parseAvgSeconds
  rw [hu, if_neg (append_single_ne_nodata _ (by decide))]
  rw [if_neg (by simp [endsWith_append_single_ne _ (show 'm' ≠ 's' by decide)])]
  rw [if_pos (endsWith_append_single _ 'm'), strDropLast_append_single]
  rw [parseFloat_formatOneDecimal x]
  rfl

lemma parseAvgSeconds_h (x : ℚ) :
    parseAvgSeconds (formatOneDecimal x ++ "h") =
      some ((roundHalfUp (10 * x) : ℚ) / 10 * 3600) := by
  have hu : ("h" : String) = (⟨['h']⟩ : String) := rfl
  unfold parseAvgSeconds
  rw [hu, if_neg (append_single_ne_nodata _ (by decide))]
  rw [if_neg (by simp [endsWith_append_single_ne _ (show 'h' ≠ 's' by decide)])]
  rw [if_neg (by simp [endsWith_append_single_ne _ (show 'h' ≠ 'm' by decide)])]
  rw [if_pos (endsWith_append_single _ 'h'), strDropLast_append_single]
  rw [parseFloat_formatOneDecimal x]
  rfl

lemma parseAvgSeconds_d (x : ℚ) :
    parseAvgSeconds (formatOneDecimal x ++ "d") =
      some ((roundHalfUp (10 * x) : ℚ) / 10 * 86400) := by
  have hu : ("d" : String) = (⟨['d']⟩ : String) := rfl
  unfold parseAvgSeconds
  rw [hu, if_neg (append_single_ne_nodata _ (by decide))]
  rw [if_neg (by simp [endsWith_append_single_ne _ (show 'd' ≠ 's' by decide)])]
  rw [if_neg (by simp [endsWith_append_single_ne _ (show 'd' ≠ 'm' by decide)])]
  rw [if_neg (by simp [endsWith_append_single_ne _ (show 'd' ≠ 'h' by decide)])]
  rw [if_pos (endsWith_append_single _ 'd'), strDropLast_append_single]
  rw [parseFloat_formatOneDecimal x]
  rfl

/-- Whatever `_calculate_average_interval` returns, the parse-back in
`get_metrics` succeeds. -/
lemma parseAvg_calc_total (h : List Int) :
    ∃ v, parseAvgSeconds (calcAvgIntervalOfHistory h) = some v := by
  unfold calcAvgIntervalOfHistory
  by_cases h2 : h.length < 2
  · rw [if_pos h2]; exact ⟨0, parseAvgSeconds_nodata⟩
  · rw [if_neg h2]
    by_cases hi : consecutiveIntervals h = []
    · rw [if_pos hi]; exact ⟨0, parseAvgSeconds_nodata⟩
    · rw [if_neg hi]
      set avg : ℚ :=
        ((consecutiveIntervals h).map (fun i => (i : ℚ))).sum /
          ((consecutiveIntervals h).length : ℚ) with havg
      by_cases c1 : avg < 60
      · rw [if_pos c1]; exact ⟨_, parseAvgSeconds_s avg⟩
      · rw [if_neg c1]
        by_cases c2 : avg < 3600
        · rw [if_pos c2]; exact ⟨_, parseAvgSeconds_m (avg / 60)⟩
        · rw [if_neg c2]
          by_cases c3 : avg < 86400
          · rw [if_pos c3]; exact ⟨_, parseAvgSeconds_h (avg / 3600)⟩
          · rw [if_neg c3]; exact ⟨_, parseAvgSeconds_d (avg / 86400)⟩

lemma parseAvg_state_total (st : TrackerState) (topic : String) :
    ∃ v, parseAvgSeconds (calculate_average_interval st topic) = some v := by
  unfold calculate_average_interval
  cases st.topic_message_history topic with
  | none => exact ⟨0, parseAvgSeconds_nodata⟩
  | some ts => exact parseAvg_calc_total ts

lemma calc_avg_nodata_of_short {h : List Int} (hl : h.length < 2) :
    calcAvgIntervalOfHistory h = "No data" := by
  unfold calcAvgIntervalOfHistory
  rw [if_pos hl]

lemma calculate_average_interval_nodata_of_short (st : TrackerState) (topic : String)
    (hl : ((st.topic_message_history topic).getD []).length < 2) :
    calculate_average_interval st topic = "No data" := by
  unfold calculate_average_interval
  cases hmem : st.topic_message_history topic with
  | none => rfl
  | some ts =>
    rw [hmem] at hl
    exact calc_avg_nodata_of_short (by simpa using hl)

/-! ### Lemmas: the arrival tracker -/

lemma recordAll_concat (topic : String) (ts : List Int) (t : Int) :
    recordAll topic (ts ++ [t]) = on_message (recordAll topic ts) topic t := by
  simp [recordAll, List.foldl_append]

/-- After delivering `ts` in order: the counter equals the number of
arrivals and the history is exactly the last `max_history_size` arrivals. -/
lemma recordAll_lookup (topic : String) (ts : List Int) :
    ((recordAll topic ts).topic_counters topic).getD 0 = ts.length ∧
      ((recordAll topic ts).topic_message_history topic).getD [] =
        ts.drop (ts.length - max_history_size) := by
  induction ts using List.reverseRecOn with
  | nil => exact ⟨rfl, rfl⟩
  | append_singleton ts t ih =>
    obtain ⟨ihc, ihh⟩ := ih
    rw [recordAll_concat]
    constructor
    · simp [on_message, ihc]
    · have hproj : ((on_message (recordAll topic ts) topic t).topic_message_history
          topic).getD [] =
          (let hist1 := ((recordAll topic ts).topic_message_history topic).getD [] ++ [t]
           if max_history_size < hist1.length then
             hist1.drop (hist1.length - max_history_size)
           else hist1) := by
        simp [on_message]
      rw [hproj, ihh]
      simp only [max_history_size] at *
      set k := ts.length with hk
      have hHlen : (ts.drop (k - 100)).length = k - (k - 100) := List.length_drop _ _
      by_cases hcase : k < 100
      · have h1 : ¬ 100 < (ts.drop (k - 100) ++ [t]).length := by
          simp [hHlen]; omega
        simp only [if_neg h1]
        have h2 : k - 100 = 0 := by omega
        have h3 : (ts ++ [t]).length - 100 = 0 := by simp; omega
        rw [h2, h3]
        simp
      · have h1 : 100 < (ts.drop (k - 100) ++ [t]).length := by
          simp [hHlen]; omega
        simp only [if_pos h1]
        have hlen1 : (ts.drop (k - 100) ++ [t]).length - 100 = 1 := by
          simp [hHlen]; omega
        rw [hlen1]
        rw [List.drop_append_of_le_length (by simp [hHlen]; omega)]
        rw [List.drop_drop]
        have h4 : k - 100 + 1 = k + 1 - 100 := by omega
        rw [h4]
        rw [← List.drop_append_of_le_length (by omega : k + 1 - 100 ≤ ts.length)]
        have h5 : (ts ++ [t]).length - 100 = k + 1 - 100 := by simp
        rw [h5]

/-! ### Lemmas: registry load -/

lemma load_foldl_topics (items : List TopicItem) (acc : Registry) :
    (items.foldl loadStep acc).topics = acc.topics ++ items.filterMap acceptedTopic := by
  induction items generalizing acc with
  | nil => simp
  | cons it rest ih =>
    rw [List.foldl_cons, ih]
    cases it with
    | str s => simp [loadStep, acceptedTopic, List.filterMap_cons]
    | obj t d ty =>
      by_cases ht : t = ""
      · subst ht
        simp [loadStep, acceptedTopic, List.filterMap_cons]
      · simp [loadStep, acceptedTopic, ht, List.filterMap_cons]
    | other => simp [loadStep, acceptedTopic, List.filterMap_cons]

/-! ### Lemmas: interval statistics -/

lemma consecutiveIntervals_length :
    ∀ l : List Int, (consecutiveIntervals l).length = l.length - 1
  | [] => rfl
  | [_] => rfl
  | a :: b :: rest => by
    have := consecutiveIntervals_length (b :: rest)
    simp only [consecutiveIntervals, List.length_cons] at *
    omega

lemma formatOneDecimal_eq_of_round (x : ℚ) (n : ℤ) (h : roundHalfUp (10 * x) = n) :
    formatOneDecimal x =
      ⟨(if n < 0 then ['-'] else []) ++ natChars (n.natAbs / 10) ++
        '.' :: natChars (n.natAbs % 10)⟩ := by
  simp only [formatOneDecimal]
  rw [h]

lemma formatOneDecimal_one : formatOneDecimal 1 = "1.0" := by
  rw [formatOneDecimal_eq_of_round 1 10 (by rw [roundHalfUp_eq]; norm_num)]
  decide

lemma formatOneDecimal_45 : formatOneDecimal 45 = "45.0" := by
  rw [formatOneDecimal_eq_of_round 45 450 (by rw [roundHalfUp_eq]; norm_num)]
  decide

lemma formatOneDecimal_one_thirtieth : formatOneDecimal (1 / 30) = "0.0" := by
  rw [formatOneDecimal_eq_of_round (1 / 30) 0 (by rw [roundHalfUp_eq]; norm_num)]
  decide

lemma calcAvg_eq_spec (h : List Int) :
    calcAvgIntervalOfHistory h = specAverageInterval h := by
  cases h with
  | nil =>
    rw [show calcAvgIntervalOfHistory [] = "No data" from rfl,
      show specAverageInterval [] = "No data" from rfl]
  | cons a t =>
    cases t with
    | nil =>
      rw [show calcAvgIntervalOfHistory [a] = "No data" from rfl,
        show specAverageInterval [a] = "No data" from rfl]
    | cons b rest =>
      unfold calcAvgIntervalOfHistory specAverageInterval
      have hlen : ¬(a :: b :: rest).length < 2 := by simp
      rw [if_neg hlen, if_neg hlen]
      have hne : consecutiveIntervals (a :: b :: rest) ≠ [] := by
        simp [consecutiveIntervals]
      rw [if_neg hne]
      rfl

lemma specAverageInterval_short (h : List Int) (hl : h.length < 2) :
    specAverageInterval h = "No data" := by
  unfold specAverageInterval
  rw [if_pos hl]

lemma specHumanize_60 : specHumanize 60 = formatOneDecimal 1 ++ "m" := by
  unfold specHumanize
  rw [if_neg (by norm_num : ¬(60 : ℚ) < 60), if_pos (by norm_num : (60 : ℚ) < 3600)]
  norm_num

lemma specHumanize_60_str : specHumanize 60 = "1.0m" := by
  rw [specHumanize_60, formatOneDecimal_one]
  rfl

/-! ### Lemmas: status rows and metric lines -/

lemma statusRow_avg_interval (reg : Registry) (st : TrackerState) (now : Int)
    (topic : String) :
    (statusRowFor reg st now topic).avg_interval =
      calculate_average_interval st topic := rfl

lemma statusRow_last_seen_of_none {st : TrackerState} {topic : String}
    (reg : Registry) (now : Int) (h : st.topic_timestamps topic = none) :
    (statusRowFor reg st now topic).last_seen = "Never" := by
  simp [statusRowFor, h]

lemma statusRow_last_seen_of_some {st : TrackerState} {topic : String} {t : Int}
    (reg : Registry) (now : Int) (h : st.topic_timestamps topic = some t) :
    (statusRowFor reg st now topic).last_seen = intToStr t := by
  simp [statusRowFor, h]

lemma statusRow_status_of_none {st : TrackerState} {topic : String}
    (reg : Registry) (now : Int) (h : st.topic_timestamps topic = none) :
    (statusRowFor reg st now topic).status = "never_seen" := by
  simp [statusRowFor, h]

/-- Evaluation of the per-row metric lines once the timestamp re-parse and
the average re-parse are known to succeed. -/
lemma topicMetricLines_eval (row : StatusRow) (tsStr : String) (v : ℚ)
    (hts : (if row.last_seen ≠ "Never" then
              (parseIntChars row.last_seen.data).map renderTsFloat
            else some "0") = some tsStr)
    (hv : parseAvgSeconds row.avg_interval = some v) :
    topicMetricLines row =
      some (["mqtt_topic_last_seen_timestamp\x7b" ++ labelsOf row ++ "\x7d " ++ tsStr,
             "mqtt_topic_message_count\x7b" ++ labelsOf row ++ "\x7d " ++
               natToStr row.message_count,
             "mqtt_topic_healthy\x7b" ++ labelsOf row ++ "\x7d " ++
               natToStr (if row.status = "healthy" then 1 else 0)] ++
            (if 0 < v then
              ["mqtt_topic_avg_interval_seconds\x7b" ++ labelsOf row ++ "\x7d " ++
                ratRepr v]
            else [])) := by
  simp only [topicMetricLines]
  by_cases hcond : row.last_seen ≠ "Never"
  · rw [if_pos hcond] at hts
    rw [if_pos hcond]
    simp [hts, hv]
  · rw [if_neg hcond] at hts
    rw [if_neg hcond]
    obtain rfl : "0" = tsStr := Option.some.inj hts
    simp [hv]

/-- Per registered topic, the metric lines always materialize, with `0` as
the emitted timestamp when the topic was never seen. -/
lemma topicMetricLines_statusRow (reg : Registry) (st : TrackerState) (now : Int)
    (topic : String) :
    ∃ tsStr v,
      parseAvgSeconds (calculate_average_interval st topic) = some v ∧
      topicMetricLines (statusRowFor reg st now topic) =
        some (["mqtt_topic_last_seen_timestamp\x7b" ++
                 labelsOf (statusRowFor reg st now topic) ++ "\x7d " ++ tsStr,
               "mqtt_topic_message_count\x7b" ++
                 labelsOf (statusRowFor reg st now topic) ++ "\x7d " ++
                 natToStr (statusRowFor reg st now topic).message_count,
               "mqtt_topic_healthy\x7b" ++
                 labelsOf (statusRowFor reg st now topic) ++ "\x7d " ++
                 natToStr
                   (if (statusRowFor reg st now topic).status = "healthy" then 1
                    else 0)] ++
              (if 0 < v then
                ["mqtt_topic_avg_interval_seconds\x7b" ++
                  labelsOf (statusRowFor reg st now topic) ++ "\x7d " ++ ratRepr v]
              else [])) ∧
      (st.topic_timestamps topic = none → tsStr = "0") := by
  obtain ⟨v, hv⟩ := parseAvg_state_total st topic
  have hv' : parseAvgSeconds ((statusRowFor reg st now topic).avg_interval) = some v := by
    rw [statusRow_avg_interval]; exact hv
  cases hseen : st.topic_timestamps topic with
  | none =>
    refine ⟨"0", v, hv, ?_, fun _ => rfl⟩
    apply topicMetricLines_eval
    · rw [statusRow_last_seen_of_none reg now hseen]
      simp
    · exact hv'
  | some t =>
    by_cases hne : intToStr t ≠ "Never"
    · refine ⟨renderTsFloat t, v, hv, ?_, fun hc => ?_⟩
      · apply topicMetricLines_eval
        · rw [statusRow_last_seen_of_some reg now hseen, if_pos hne]
          show (parseIntChars (intChars t)).map renderTsFloat = some (renderTsFloat t)
          rw [parseIntChars_intChars]
          rfl
        · exact hv'
      · exact Option.noConfusion hc
    · refine ⟨"0", v, hv, ?_, fun _ => rfl⟩
      apply topicMetricLines_eval
      · rw [statusRow_last_seen_of_some reg now hseen, if_neg hne]
      · exact hv'

lemma mapM_topicMetricLines_total (rows : List StatusRow)
    (h : ∀ r ∈ rows, ∃ l, topicMetricLines r = some l) :
    ∃ ls, rows.mapM topicMetricLines = some ls := by
  induction rows with
  | nil => exact ⟨[], rfl⟩
  | cons r rest ih =>
    obtain ⟨l, hl⟩ := h r (by simp)
    obtain ⟨ls, hls⟩ := ih (fun x hx => h x (by simp [hx]))
    refine ⟨l :: ls, ?_⟩
    rw [List.mapM_cons, hl, hls]
    rfl

/-! ### Claim theorems -/

/-- C4: `average_interval` returns `"No data"` on histories with fewer than
two entries, and otherwise the mean of all consecutive-pair deltas across
the full history, formatted by magnitude with one decimal digit and
half-open lower bounds — so a mean of exactly 60.0 s renders in minutes. -/
theorem average_interval_matches_spec :
    (∀ h : List Int, calcAvgIntervalOfHistory h = specAverageInterval h) ∧
    (∀ h : List Int, h.length < 2 → specAverageInterval h = "No data") ∧
    specHumanize 60 = formatOneDecimal 1 ++ "m" ∧
    specHumanize 60 = "1.0m" :=
  ⟨calcAvg_eq_spec, specAverageInterval_short, specHumanize_60, specHumanize_60_str⟩

theorem average_interval_matches_spec_witness :
    calcAvgIntervalOfHistory [5] = specAverageInterval [5] ∧
    (([5] : List Int).length < 2 ∧ specAverageInterval [5] = "No data") ∧
    specHumanize 60 = "1.0m" :=
  ⟨average_interval_matches_spec.1 [5],
   ⟨by decide, average_interval_matches_spec.2.1 [5] (by decide)⟩,
   average_interval_matches_spec.2.2.2⟩

/-- C2 counterexample: on the history `[t, t+30, t+90]` (at `t = 0`) the
consecutive deltas are 30 s and 60 s, so the code returns `"45.0s"`, not the
claimed `"30.0s"`. -/
theorem average_interval_counterexample_0_30_90 :
    calcAvgIntervalOfHistory [0, 30, 90] = "45.0s" ∧
    calcAvgIntervalOfHistory [0, 30, 90] ≠ "30.0s" := by
  have h45 : calcAvgIntervalOfHistory [0, 30, 90] = "45.0s" := by
    have hint : consecutiveIntervals [0, 30, 90] = ([30, 60] : List Int) := by decide
    unfold calcAvgIntervalOfHistory
    rw [hint]
    rw [if_neg (by decide : ¬([0, 30, 90] : List Int).length < 2)]
    rw [if_neg (by decide : ¬([30, 60] : List Int) = [])]
    have havg : ((([30, 60] : List Int).map (fun i => (i : ℚ))).sum) /
        ((([30, 60] : List Int).length : ℕ) : ℚ) = 45 := by
      simp
      norm_num
    rw [havg]
    rw [if_pos (by norm_num : (45 : ℚ) < 60)]
    rw [formatOneDecimal_45]
    rfl
  exact ⟨h45, by rw [h45]; decide⟩

/-- C2 amended: `average_interval` on the history `[t, t+30, t+90]` yields a
mean consecutive-pair delta of 45 seconds and returns `"45.0s"`. -/
theorem average_interval_t_t30_t90_amended (t : Int) :
    calcAvgIntervalOfHistory [t, t + 30, t + 90] = "45.0s" := by
  have hint : consecutiveIntervals [t, t + 30, t + 90] = ([30, 60] : List Int) := by
    simp [consecutiveIntervals]
  unfold calcAvgIntervalOfHistory
  rw [hint]
  rw [if_neg (by simp : ¬([t, t + 30, t + 90] : List Int).length < 2)]
  rw [if_neg (by decide : ¬([30, 60] : List Int) = [])]
  have havg : ((([30, 60] : List Int).map (fun i => (i : ℚ))).sum) /
      ((([30, 60] : List Int).length : ℕ) : ℚ) = 45 := by
    simp
    norm_num
  rw [havg]
  rw [if_pos (by norm_num : (45 : ℚ) < 60)]
  rw [formatOneDecimal_45]
  rfl

/-- C3: classification is `never_seen` when no arrival was recorded,
`healthy` when strictly less than one hour (3600 s) has elapsed, and
`unhealthy` otherwise — in particular at exactly one hour. -/
theorem classification_threshold (reg : Registry) (st : TrackerState) (now : Int)
    (topic : String) :
    (st.topic_timestamps topic = none →
      (statusRowFor reg st now topic).status = "never_seen") ∧
    (∀ t, st.topic_timestamps topic = some t →
      (now - t < 3600 → (statusRowFor reg st now topic).status = "healthy") ∧
      (3600 ≤ now - t → (statusRowFor reg st now topic).status = "unhealthy") ∧
      (now - t = 3600 → (statusRowFor reg st now topic).status = "unhealthy")) := by
  refine ⟨fun h => by simp [statusRowFor, h], fun t ht => ⟨?_, ?_, ?_⟩⟩
  · intro hlt
    simp [statusRowFor, ht, hlt]
  · intro hge
    have hnlt : ¬ now - t < 3600 := not_lt.mpr hge
    simp [statusRowFor, ht, hnlt]
  · intro heq
    have hnlt : ¬ now - t < 3600 := by omega
    simp [statusRowFor, ht, hnlt]

theorem classification_threshold_witness :
    (statusRowFor emptyRegistry witnessState 3600 "a").status = "never_seen" ∧
    (statusRowFor emptyRegistry witnessState 3599 "b").status = "healthy" ∧
    (statusRowFor emptyRegistry witnessState 3600 "b").status = "unhealthy" :=
  ⟨(classification_threshold emptyRegistry witnessState 3600 "a").1 (by decide),
   ((classification_threshold emptyRegistry witnessState 3599 "b").2 0 (by decide)).1
     (by decide),
   ((classification_threshold emptyRegistry witnessState 3600 "b").2 0 (by decide)).2.2
     (by decide)⟩

/-- C9: when the status read happens at exactly the last-arrival timestamp,
the elapsed `timedelta` is falsy, so `time_since` renders as `'Never'`
although `last_seen` shows the arrival timestamp and the status is
`healthy`. -/
theorem time_since_never_at_zero_elapsed (reg : Registry) (st : TrackerState)
    (topic : String) (now : Int) (h : st.topic_timestamps topic = some now) :
    (statusRowFor reg st now topic).time_since = "Never" ∧
    (statusRowFor reg st now topic).last_seen = intToStr now ∧
    (statusRowFor reg st now topic).status = "healthy" := by
  refine ⟨?_, ?_, ?_⟩ <;> simp [statusRowFor, h]

theorem time_since_never_at_zero_elapsed_witness :
    (statusRowFor emptyRegistry witnessState 0 "b").time_since = "Never" ∧
    (statusRowFor emptyRegistry witnessState 0 "b").last_seen = intToStr 0 ∧
    (statusRowFor emptyRegistry witnessState 0 "b").status = "healthy" :=
  time_since_never_at_zero_elapsed emptyRegistry witnessState "b" 0 (by decide)

/-- C5: after `k ≥ 1` recorded arrivals on a channel the counter equals `k`,
the history length is `min k 100`, and the history is exactly the last 100
arrival timestamps in arrival order. -/
theorem counter_and_history_after_arrivals (topic : String) (ts : List Int)
    (hk : 1 ≤ ts.length) :
    ((recordAll topic ts).topic_counters topic).getD 0 = ts.length ∧
    (((recordAll topic ts).topic_message_history topic).getD []).length =
      min ts.length 100 ∧
    ((recordAll topic ts).topic_message_history topic).getD [] =
      ts.drop (ts.length - 100) := by
  obtain ⟨hc, hh⟩ := recordAll_lookup topic ts
  refine ⟨hc, ?_, hh⟩
  rw [hh, List.length_drop]
  simp only [max_history_size]
  omega

theorem counter_and_history_after_arrivals_witness :
    1 ≤ ([1, 2, 3] : List Int).length ∧
    (((recordAll "a" [1, 2, 3]).topic_counters "a").getD 0 =
        ([1, 2, 3] : List Int).length ∧
      (((recordAll "a" [1, 2, 3]).topic_message_history "a").getD []).length =
        min ([1, 2, 3] : List Int).length 100 ∧
      ((recordAll "a" [1, 2, 3]).topic_message_history "a").getD [] =
        ([1, 2, 3] : List Int).drop (([1, 2, 3] : List Int).length - 100)) :=
  ⟨by decide, counter_and_history_after_arrivals "a" [1, 2, 3] (by decide)⟩

/-- C6: registry load returns an empty channel sequence when the source is
absent or unparsable; the accepted identifiers are exactly the bare strings
together with the nonempty identifiers of structured entries (empty or
missing identifiers are skipped); a bare string entry gets display name
defaulting to the identifier and type `unknown`. -/
theorem registry_load_behavior :
    load_topics .fileNotFound = emptyRegistry ∧
    load_topics .jsonDecodeError = emptyRegistry ∧
    (∀ items, (load_topics (.parsed items)).topics = items.filterMap acceptedTopic) ∧
    (∀ s : String, ∀ st : TrackerState, ∀ now : Int,
      (load_topics (.parsed [.str s])).topics = [s] ∧
      (load_topics (.parsed [.str s])).topic_descriptions s = none ∧
      (load_topics (.parsed [.str s])).topic_types s = none ∧
      (statusRowFor (load_topics (.parsed [.str s])) st now s).display_name = s ∧
      (statusRowFor (load_topics (.parsed [.str s])) st now s).type_ = "unknown") ∧
    (∀ d ty : String, load_topics (.parsed [.obj "" d ty]) = emptyRegistry) := by
  refine ⟨rfl, rfl, ?_, ?_, ?_⟩
  · intro items
    show (items.foldl loadStep emptyRegistry).topics = _
    rw [load_foldl_topics]
    rfl
  · intro s st now
    refine ⟨rfl, rfl, rfl, ?_, ?_⟩ <;>
      simp [statusRowFor, load_topics, loadStep, emptyRegistry]
  · intro d ty
    simp [load_topics, loadStep, emptyRegistry]

/-- C7: the metrics export always succeeds; the document ends with a
trailing newline; a never-seen channel emits `last_seen_timestamp … 0` and
`healthy … 0`; and with fewer than two history entries the
`avg_interval_seconds` metric is omitted (exactly the three base lines). -/
theorem metrics_export_robust (reg : Registry) (st : TrackerState) (now : Int) :
    (∃ doc, get_metrics reg st now = some doc ∧ ∃ p, doc = p ++ "\n") ∧
    (∀ topic, st.topic_timestamps topic = none →
      ∃ mcLine avgPart,
        topicMetricLines (statusRowFor reg st now topic) =
          some (("mqtt_topic_last_seen_timestamp\x7b" ++
                  labelsOf (statusRowFor reg st now topic) ++ "\x7d " ++ "0") ::
                mcLine ::
                ("mqtt_topic_healthy\x7b" ++
                  labelsOf (statusRowFor reg st now topic) ++ "\x7d " ++ "0") ::
                avgPart)) ∧
    (∀ topic, ((st.topic_message_history topic).getD []).length < 2 →
      ∃ a b c, topicMetricLines (statusRowFor reg st now topic) = some [a, b, c]) := by
  refine ⟨?_, ?_, ?_⟩
  · have htot : ∀ r ∈ get_status_data reg st now, ∃ l, topicMetricLines r = some l := by
      intro r hr
      simp only [get_status_data, List.mem_map] at hr
      obtain ⟨topic, _, rfl⟩ := hr
      obtain ⟨tsStr, v, _, hlines, _⟩ := topicMetricLines_statusRow reg st now topic
      exact ⟨_, hlines⟩
    obtain ⟨ls, hls⟩ := mapM_topicMetricLines_total _ htot
    refine ⟨String.intercalate "\n" (metricsHeaders ++ ls.flatten) ++ "\n", ?_, ⟨_, rfl⟩⟩
    simp only [get_metrics]
    rw [hls]
    rfl
  · intro topic hnone
    obtain ⟨tsStr, v, hv, hlines, hts0⟩ := topicMetricLines_statusRow reg st now topic
    obtain rfl : tsStr = "0" := hts0 hnone
    rw [statusRow_status_of_none reg now hnone,
      if_neg (show ("never_seen" : String) ≠ "healthy" by decide),
      show natToStr 0 = "0" from rfl] at hlines
    exact ⟨_, _, hlines⟩
  · intro topic hshort
    have hnod : calculate_average_interval st topic = "No data" :=
      calculate_average_interval_nodata_of_short st topic hshort
    obtain ⟨tsStr, v, hv, hlines, _⟩ := topicMetricLines_statusRow reg st now topic
    rw [hnod, parseAvgSeconds_nodata] at hv
    obtain rfl : (0 : ℚ) = v := Option.some.inj hv
    rw [if_neg (lt_irrefl (0 : ℚ)), List.append_nil] at hlines
    exact ⟨_, _, _, hlines⟩

theorem metrics_export_robust_witness :
    (∃ doc,
      get_metrics (load_topics (.parsed [.str "x"])) initialState 0 = some doc ∧
        ∃ p, doc = p ++ "\n") ∧
    (∃ mcLine avgPart,
      topicMetricLines (statusRowFor (load_topics (.parsed [.str "x"]))
          initialState 0 "x") =
        some (("mqtt_topic_last_seen_timestamp\x7b" ++
                labelsOf (statusRowFor (load_topics (.parsed [.str "x"]))
                  initialState 0 "x") ++ "\x7d " ++ "0") ::
              mcLine ::
              ("mqtt_topic_healthy\x7b" ++
                labelsOf (statusRowFor (load_topics (.parsed [.str "x"]))
                  initialState 0 "x") ++ "\x7d " ++ "0") ::
              avgPart)) ∧
    (∃ a b c,
      topicMetricLines (statusRowFor (load_topics (.parsed [.str "x"]))
          initialState 0 "x") = some [a, b, c]) := by
  have h := metrics_export_robust (load_topics (.parsed [.str "x"])) initialState 0
  exact ⟨h.1, h.2.1 "x" (by decide), h.2.2 "x" (by decide)⟩

/-- C1 (code bug): `get_metrics` computes the sanitized `safe_topic` but
never uses it — the emitted labels carry the raw topic string.  For the
channel `sensors/temp one` the sanitizer would produce `sensors_temp_one`,
yet every emitted label value is the raw `sensors/temp one`. -/
theorem metrics_labels_use_raw_topic :
    sanitizePrometheus "sensors/temp one" = "sensors_temp_one" ∧
    topicMetricLines (statusRowFor (load_topics (.parsed [.str "sensors/temp one"]))
        initialState 0 "sensors/temp one") =
      some ["mqtt_topic_last_seen_timestamp\x7btopic=\"sensors/temp one\",display_name=\"sensors/temp one\",type=\"unknown\"\x7d 0",
            "mqtt_topic_message_count\x7btopic=\"sensors/temp one\",display_name=\"sensors/temp one\",type=\"unknown\"\x7d 0",
            "mqtt_topic_healthy\x7btopic=\"sensors/temp one\",display_name=\"sensors/temp one\",type=\"unknown\"\x7d 0"] := by
  exact ⟨by decide, by decide⟩

/-! ### Concrete evaluations for the rounding divergence -/

lemma calcAvg_61 : calcAvgIntervalOfHistory [0, 61, 122] = "1.0m" := by
  have hint : consecutiveIntervals [0, 61, 122] = ([61, 61] : List Int) := by decide
  unfold calcAvgIntervalOfHistory
  rw [hint]
  rw [if_neg (by decide : ¬([0, 61, 122] : List Int).length < 2)]
  rw [if_neg (by decide : ¬([61, 61] : List Int) = [])]
  have havg : ((([61, 61] : List Int).map (fun i => (i : ℚ))).sum) /
      ((([61, 61] : List Int).length : ℕ) : ℚ) = 61 := by
    norm_num
  rw [havg]
  rw [if_neg (by norm_num : ¬(61 : ℚ) < 60), if_pos (by norm_num : (61 : ℚ) < 3600)]
  rw [formatOneDecimal_eq_of_round (61 / 60) 10 (by rw [roundHalfUp_eq]; norm_num)]
  decide

lemma specMean_61 : specMeanDeltaSeconds [0, 61, 122] = 61 := by
  unfold specMeanDeltaSeconds
  rw [show consecutiveIntervals [0, 61, 122] = ([61, 61] : List Int) from by decide]
  norm_num

lemma parseAvg_1_0m : parseAvgSeconds "1.0m" = some 60 := by
  have h := parseAvgSeconds_m 1
  rw [formatOneDecimal_one] at h
  rw [show ("1.0" ++ "m" : String) = "1.0m" from rfl] at h
  rw [h]
  rw [show roundHalfUp (10 * 1 : ℚ) = 10 from by rw [roundHalfUp_eq]; norm_num]
  norm_num

lemma calcAvg_small :
    calcAvgIntervalOfHistory (List.replicate 30 (0 : Int) ++ [1]) = "0.0s" := by
  have hint : consecutiveIntervals (List.replicate 30 (0 : Int) ++ [1]) =
      List.replicate 29 0 ++ [1] := by decide
  unfold calcAvgIntervalOfHistory
  rw [hint]
  have hlen : ¬ ((List.replicate 30 (0 : Int) ++ [1]).length < 2) := by decide
  rw [if_neg hlen]
  have hnil : ¬ ((List.replicate 29 (0 : Int) ++ [1] : List Int) = []) := by decide
  rw [if_neg hnil]
  have havg : (((List.replicate 29 (0 : Int) ++ [1]).map (fun i => (i : ℚ))).sum) /
      (((List.replicate 29 (0 : Int) ++ [1]).length : ℕ) : ℚ) = 1 / 30 := by
    simp [List.sum_replicate]
  rw [havg]
  rw [if_pos (by norm_num : (1 : ℚ) / 30 < 60)]
  rw [formatOneDecimal_one_thirtieth]
  rfl

lemma specMean_small_pos :
    0 < specMeanDeltaSeconds (List.replicate 30 (0 : Int) ++ [1]) := by
  unfold specMeanDeltaSeconds
  rw [show consecutiveIntervals (List.replicate 30 (0 : Int) ++ [1]) =
      List.replicate 29 0 ++ [1] from by decide]
  simp [List.sum_replicate]

lemma parseAvg_0_0s : parseAvgSeconds "0.0s" = some 0 := by
  have h := parseAvgSeconds_s (1 / 30)
  rw [formatOneDecimal_one_thirtieth] at h
  rw [show ("0.0" ++ "s" : String) = "0.0s" from rfl] at h
  rw [h]
  rw [show roundHalfUp (10 * (1 / 30) : ℚ) = 0 from by rw [roundHalfUp_eq]; norm_num]
  norm_num

/-- C10: the exported `avg_interval_seconds` value is obtained by parsing
the one-decimal humanized string back (scaling by the unit suffix), so it
matches the exact mean only up to display rounding — an exact mean of 61 s
renders as `"1.0m"` and is exported as 60 — and the metric is omitted
whenever the parsed value is 0, including a positive exact mean that
formats as `"0.0s"`. -/
theorem avg_metric_parsed_not_exact :
    (∀ (row : StatusRow) (tsStr : String) (v : ℚ),
      (if row.last_seen ≠ "Never" then
        (parseIntChars row.last_seen.data).map renderTsFloat
      else some "0") = some tsStr →
      parseAvgSeconds row.avg_interval = some v →
      topicMetricLines row =
        some (["mqtt_topic_last_seen_timestamp\x7b" ++ labelsOf row ++ "\x7d " ++ tsStr,
               "mqtt_topic_message_count\x7b" ++ labelsOf row ++ "\x7d " ++
                 natToStr row.message_count,
               "mqtt_topic_healthy\x7b" ++ labelsOf row ++ "\x7d " ++
                 natToStr (if row.status = "healthy" then 1 else 0)] ++
              (if 0 < v then
                ["mqtt_topic_avg_interval_seconds\x7b" ++ labelsOf row ++ "\x7d " ++
                  ratRepr v]
              else []))) ∧
    (calcAvgIntervalOfHistory [0, 61, 122] = "1.0m" ∧
      specMeanDeltaSeconds [0, 61, 122] = 61 ∧
      parseAvgSeconds "1.0m" = some 60 ∧ (60 : ℚ) ≠ 61) ∧
    (calcAvgIntervalOfHistory (List.replicate 30 (0 : Int) ++ [1]) = "0.0s" ∧
      0 < specMeanDeltaSeconds (List.replicate 30 (0 : Int) ++ [1]) ∧
      parseAvgSeconds "0.0s" = some 0) :=
  ⟨fun row tsStr v hts hv => topicMetricLines_eval row tsStr v hts hv,
   ⟨calcAvg_61, specMean_61, parseAvg_1_0m, by norm_num⟩,
   ⟨calcAvg_small, specMean_small_pos, parseAvg_0_0s⟩⟩

theorem avg_metric_parsed_not_exact_witness :
    topicMetricLines ⟨"x", "x", "unknown", "Never", "Never", 3, "0.0s", "never_seen"⟩ =
      some (["mqtt_topic_last_seen_timestamp\x7b" ++
               labelsOf ⟨"x", "x", "unknown", "Never", "Never", 3, "0.0s", "never_seen"⟩ ++
               "\x7d " ++ "0",
             "mqtt_topic_message_count\x7b" ++
               labelsOf ⟨"x", "x", "unknown", "Never", "Never", 3, "0.0s", "never_seen"⟩ ++
               "\x7d " ++ natToStr 3,
             "mqtt_topic_healthy\x7b" ++
               labelsOf ⟨"x", "x", "unknown", "Never", "Never", 3, "0.0s", "never_seen"⟩ ++
               "\x7d " ++ natToStr 0] ++
            (if 0 < (0 : ℚ) then
              ["mqtt_topic_avg_interval_seconds\x7b" ++
                labelsOf ⟨"x", "x", "unknown", "Never", "Never", 3, "0.0s", "never_seen"⟩ ++
                "\x7d " ++ ratRepr 0]
            else [])) :=
  avg_metric_parsed_not_exact.1
    ⟨"x", "x", "unknown", "Never", "Never", 3, "0.0s", "never_seen"⟩ "0" 0
    (by decide) parseAvg_0_0s

end MqttHealthcheck
